import Mathlib

/-!
Shallow embedding of `asmlib/call.py` (PAV variant caller functions) and
proofs of the specified properties.

Conventions of the embedding:
* A `collections.defaultdict(intervaltree.IntervalTree)` is embedded as a
  total function `String → List Interval`; a missing chromosome key yields
  the empty list, exactly as the defaultdict yields a fresh empty tree.
* `IntervalTree.overlap(begin, end)` (also slice indexing `tree[a:b]`)
  returns the stored intervals `[b, e)` with `b < end` and `e > begin`;
  for a null query range (`begin ≥ end`) it returns the empty set.
* Python exceptions (`RuntimeError`, `KeyError`, `UnboundLocalError`) are
  embedded as `Except`/`Option` error results that propagate.
* Pandas DataFrames are embedded as lists of rows carrying their index
  label, since only index identity, the relevant columns and the row order
  are observable in the code under study.
-/

namespace PavCall

/-- A stored `intervaltree.Interval` with half-open span `[begin, end)`.
`end` is a Lean keyword, hence the field names `ibegin`/`iend`. -/
structure Interval where
  ibegin : Int
  iend : Int
deriving Repr, DecidableEq

/-- `tree.overlap(b, e)` / `tree[b:e]` of `intervaltree`: all stored
intervals strictly overlapping the half-open query range `[b, e)`;
a null query range returns nothing. -/
def treeOverlap (tree : List Interval) (b e : Int) : List Interval :=
  if b ≥ e then []
  else tree.filter (fun iv => iv.ibegin < e && b < iv.iend)

/-- Helper for `pySplit`: split a character list at every occurrence of
`sep`.  Structural recursion, so concrete instances reduce in the kernel. -/
def splitCharAux (sep : Char) : List Char → List (List Char)
  | [] => [[]]
  | c :: rest =>
    match splitCharAux sep rest with
    | [] => if c = sep then [[], []] else [[c]]
    | h :: t => if c = sep then [] :: h :: t else (c :: h) :: t

/-- Embedding of Python's `str.split(sep)` for a one-character separator:
`"a;b".split(';') = ["a", "b"]`, `"".split(';') = [""]`,
`"a;;b".split(';') = ["a", "", "b"]`. -/
def pySplit (sep : Char) (s : String) : List String :=
  (splitCharAux sep s.toList).map List.asString

/-- A merged variant row as read by `get_gt`: `#CHROM`, `POS`, `END` and the
`;`-joined `HAP` label field. -/
structure VarRow where
  chrom : String
  pos : Int
  end_ : Int
  hap : String
deriving Repr, DecidableEq

/-- Embedding of `get_gt(row, hap, map_tree)`: `'1'` if `hap` is among the
`;`-split `HAP` labels; else `'0'` if some interval returned by
`map_tree[#CHROM].overlap(POS, END)` satisfies
`interval.begin <= POS and interval.end >= END`; else `'.'`. -/
def get_gt (row : VarRow) (hap : String) (map_tree : String → List Interval) : String :=
  if hap ∈ pySplit (';') row.hap then "1"
  else if (treeOverlap (map_tree row.chrom) row.pos row.end_).any
      (fun iv => iv.ibegin ≤ row.pos && iv.iend ≥ row.end_) then "0"
  else "."

/-- The spec's ternary genotype, written from the spec's words: `'1'` if the
haplotype is a member of the record's `;`-split `HAP` label set, else `'0'`
if some single stored interval on the record's chromosome fully contains
`[POS, END)` (`interval.begin ≤ POS` and `interval.end ≥ END`), else `'.'`. -/
def gtSpec (row : VarRow) (hap : String) (map_tree : String → List Interval) : String :=
  if hap ∈ pySplit (';') row.hap then "1"
  else if (map_tree row.chrom).any
      (fun iv => iv.ibegin ≤ row.pos && iv.iend ≥ row.end_) then "0"
  else "."

lemma treeOverlap_any_contains (tree : List Interval) (p e : Int) (hpe : p < e) :
    ((treeOverlap tree p e).any (fun iv => iv.ibegin ≤ p && iv.iend ≥ e))
      = tree.any (fun iv => iv.ibegin ≤ p && iv.iend ≥ e) := by
  unfold treeOverlap
  rw [if_neg (by omega), List.any_filter, Bool.eq_iff_iff]
  simp only [List.any_eq_true, Bool.and_eq_true, decide_eq_true_eq, ge_iff_le]
  constructor
  · rintro ⟨iv, hm, _, hb, hc⟩
    exact ⟨iv, hm, hb, hc⟩
  · rintro ⟨iv, hm, hb, hc⟩
    exact ⟨iv, hm, ⟨by omega, by omega⟩, hb, hc⟩

/-- C1 (amended): for every variant record with `POS < END`, haplotype label
and mappability index, `get_gt` returns `'1'` if the haplotype label is a
member of the record's `;`-split `HAP` label set; otherwise `'0'` if some
single stored interval on the record's chromosome fully contains `[POS, END)`
(`interval.begin ≤ POS` and `interval.end ≥ END`); otherwise `'.'`.  In
particular, partial-overlap-only coverage yields `'.'`, not `'0'`. -/
theorem get_gt_ternary (row : VarRow) (hap : String)
    (map_tree : String → List Interval) (hpe : row.pos < row.end_) :
    get_gt row hap map_tree = gtSpec row hap map_tree := by
  unfold get_gt gtSpec
  rw [treeOverlap_any_contains _ _ _ hpe]

/-- Witness for `get_gt_ternary` at a concrete record: `HAP = "h2"`, query
haplotype `h1`, mappable interval `[50, 300)` fully containing `[100, 200)`,
so both sides give `'0'`. -/
theorem get_gt_ternary_witness :
    (100 : Int) < 200 ∧
      get_gt ⟨"chr1", 100, 200, "h2"⟩ "h1"
          (fun c => if c = "chr1" then [⟨50, 300⟩] else [])
        = gtSpec ⟨"chr1", 100, 200, "h2"⟩ "h1"
          (fun c => if c = "chr1" then [⟨50, 300⟩] else []) :=
  ⟨by decide, get_gt_ternary ⟨"chr1", 100, 200, "h2"⟩ "h1" _ (by decide)⟩

/-- C1 counterexample: a degenerate record with `POS = END = 5`, `HAP = "h2"`,
query haplotype `h1`, and a stored interval `[3, 5)` on the record's
chromosome.  The interval fully contains `[5, 5)` in the claim's sense
(`begin 3 ≤ 5` and `end 5 ≥ 5`), and `h1` is not among the labels, so the
claim demands `'0'`; but the overlap query over the null range `[5, 5)` is
empty, so `get_gt` returns `'.'`. -/
theorem get_gt_ternary_counterexample :
    ("h1" ∉ pySplit (';') (VarRow.mk "chr1" 5 5 "h2").hap) ∧
      (∃ iv ∈ (fun c => if c = "chr1" then [Interval.mk 3 5] else []) (VarRow.mk "chr1" 5 5 "h2").chrom,
        iv.ibegin ≤ (5 : Int) ∧ iv.iend ≥ (5 : Int)) ∧
      get_gt ⟨"chr1", 5, 5, "h2"⟩ "h1" (fun c => if c = "chr1" then [⟨3, 5⟩] else []) = "." := by
  refine ⟨by decide, ⟨⟨3, 5⟩, by simp, by decide, by decide⟩, ?_⟩
  rfl

/-- C9: querying a chromosome with no stored interval (the defaultdict yields
an empty tree) makes `get_gt` return `'.'` when the haplotype is not among the
record's labels — never a lookup failure. -/
theorem get_gt_unknown_chrom (row : VarRow) (hap : String)
    (map_tree : String → List Interval)
    (hchrom : map_tree row.chrom = [])
    (hhap : hap ∉ pySplit (';') row.hap) :
    get_gt row hap map_tree = "." := by
  unfold get_gt
  rw [if_neg hhap, hchrom]
  unfold treeOverlap
  by_cases h : row.pos ≥ row.end_
  · rw [if_pos h]
    rfl
  · rw [if_neg h]
    rfl

/-- Witness for `get_gt_unknown_chrom`: a record on `chrUn`, a tree holding
intervals only for `chr1`, and a haplotype absent from the labels. -/
theorem get_gt_unknown_chrom_witness :
    get_gt ⟨"chrUn", 10, 20, "h2"⟩ "h1"
      (fun c => if c = "chr1" then [⟨0, 1000⟩] else []) = "." :=
  get_gt_unknown_chrom ⟨"chrUn", 10, 20, "h2"⟩ "h1" _ (by decide) (by decide)

/-- A per-haplotype source row: the haplotype-local variant identifier (the
table's index) plus the named column values reachable via `df.loc[id, col]`. -/
structure SrcRow where
  id : String
  cols : List (String × String)
deriving Repr, DecidableEq

/-- `tbl.loc[id, col]`: the named column of the row whose index equals `id`;
`none` embeds pandas' `KeyError` for a missing index label or column. -/
def locLookup (tbl : List SrcRow) (id col : String) : Option String :=
  match tbl.find? (fun r => r.id == id) with
  | none => none
  | some r => (r.cols.find? (fun p => p.1 == col)).map (fun p => p.2)

/-- `df_dict[val[0]].loc[val[1], col_name]` of `val_per_hap`, with
`df_dict = {'h1': df_h1, 'h2': df_h2}`; a label other than `h1`/`h2` is a
`KeyError` on `df_dict`, embedded as `none`. -/
def hapLookup (df_h1 df_h2 : List SrcRow) (hap id col : String) : Option String :=
  if hap == "h1" then locLookup df_h1 id col
  else if hap == "h2" then locLookup df_h2 id col
  else none

/-- A merged row as read by `val_per_hap`: its `;`-joined `HAP` and
`HAP_VARIANTS` fields. -/
structure MergedRow where
  hap : String
  hap_variants : String
deriving Repr, DecidableEq

/-- The per-row `val_list` of `val_per_hap`:
`tuple(zip(row['HAP'].split(';'), row['HAP_VARIANTS'].split(';')))`. -/
def val_list (row : MergedRow) : List (String × String) :=
  (pySplit ';' row.hap).zip (pySplit ';' row.hap_variants)

/-- The generator `(df_dict[val[0]].loc[val[1], col_name] for val in val_list)`
consumed by `delim.join`: a failing lookup anywhere aborts the whole row. -/
def gatherVals (df_h1 df_h2 : List SrcRow) (col : String) :
    List (String × String) → Option (List String)
  | [] => some []
  | p :: rest =>
    match hapLookup df_h1 df_h2 p.1 p.2 col, gatherVals df_h1 df_h2 col rest with
    | some v, some vs => some (v :: vs)
    | _, _ => none

/-- One row's output of `val_per_hap`: `delim.join(...)` over the gathered
values, in `HAP` label order. -/
def val_per_hap_row (df_h1 df_h2 : List SrcRow) (col delim : String)
    (row : MergedRow) : Option String :=
  (gatherVals df_h1 df_h2 col (val_list row)).map (String.intercalate delim)

/-- Embedding of `val_per_hap(df, df_h1, df_h2, col_name, delim)`: the output
Series, one value per merged row in input order; a lookup failure in any row
propagates out of the whole `apply`. -/
def val_per_hap (df : List MergedRow) (df_h1 df_h2 : List SrcRow)
    (col delim : String) : Option (List String) :=
  match df with
  | [] => some []
  | r :: rest =>
    match val_per_hap_row df_h1 df_h2 col delim r,
        val_per_hap rest df_h1 df_h2 col delim with
    | some v, some vs => some (v :: vs)
    | _, _ => none

lemma gatherVals_of_forall₂ (df_h1 df_h2 : List SrcRow) (col : String)
    {ps : List (String × String)} {vals : List String}
    (h : List.Forall₂ (fun p v => hapLookup df_h1 df_h2 p.1 p.2 col = some v) ps vals) :
    gatherVals df_h1 df_h2 col ps = some vals := by
  induction h with
  | nil => rfl
  | cons hpv _ ih =>
    unfold gatherVals
    rw [hpv, ih]

lemma gatherVals_of_mem_fail (df_h1 df_h2 : List SrcRow) (col : String)
    {ps : List (String × String)} {p : String × String}
    (hp : p ∈ ps) (hfail : hapLookup df_h1 df_h2 p.1 p.2 col = none) :
    gatherVals df_h1 df_h2 col ps = none := by
  induction ps with
  | nil => cases hp
  | cons q rest ih =>
    unfold gatherVals
    rcases List.mem_cons.mp hp with hq | hq
    · subst hq
      rw [hfail]
    · rw [ih hq]
      rcases hapLookup df_h1 df_h2 q.1 q.2 col with _ | v <;> rfl

/-- C4: for every merged record with one or two `HAP` labels, `val_per_hap`
produces exactly one output value per record, obtained by pairing each
`;`-split `HAP` label positionally with the matching `;`-split
`HAP_VARIANTS` identifier, looking the named field up in the source table of
that label, and joining the looked-up values with the delimiter in exactly
`HAP` label order. -/
theorem val_per_hap_order (df_h1 df_h2 : List SrcRow) (col delim : String)
    (df : List MergedRow) (valss : List (List String))
    (hn : ∀ row ∈ df,
      (pySplit ';' row.hap).length = 1 ∨ (pySplit ';' row.hap).length = 2)
    (hv : List.Forall₂ (fun row vals =>
      List.Forall₂ (fun p v => hapLookup df_h1 df_h2 p.1 p.2 col = some v)
        (val_list row) vals) df valss) :
    val_per_hap df df_h1 df_h2 col delim
      = some (valss.map (String.intercalate delim)) := by
  induction hv with
  | nil => rfl
  | cons hrow _ ih =>
    unfold val_per_hap
    rw [ih (fun r hr => hn r (List.mem_cons_of_mem _ hr))]
    unfold val_per_hap_row
    rw [gatherVals_of_forall₂ df_h1 df_h2 col hrow]
    rfl

/-- Witness for `val_per_hap_order`, following the spec's scenario:
`HAP = "h1;h2"`, `HAP_VARIANTS = "v1;v9"`, reconciling `CI` where h1's
`v1.CI = "0,5"` and h2's `v9.CI = "0,3"` gives the single value `"0,5;0,3"`. -/
theorem val_per_hap_order_witness :
    val_per_hap [⟨"h1;h2", "v1;v9"⟩]
        [⟨"v1", [("CI", "0,5")]⟩] [⟨"v9", [("CI", "0,3")]⟩] "CI" ";"
      = some ["0,5;0,3"] := by
  have h := val_per_hap_order
    [⟨"v1", [("CI", "0,5")]⟩] [⟨"v9", [("CI", "0,3")]⟩] "CI" ";"
    [⟨"h1;h2", "v1;v9"⟩] [["0,5", "0,3"]]
    (by decide)
    (List.Forall₂.cons
      (List.Forall₂.cons (by decide)
        (List.Forall₂.cons (by decide) List.Forall₂.nil))
      List.Forall₂.nil)
  simpa using h

/-- C5: a `HAP_VARIANTS` identifier absent from the source table of its
paired haplotype label makes the lookup fail, and the failure propagates out
of `val_per_hap`: no output Series is produced for the record set. -/
theorem val_per_hap_dangling (df_h1 df_h2 : List SrcRow) (col delim : String)
    (df : List MergedRow) (row : MergedRow) (p : String × String)
    (hrow : row ∈ df) (hp : p ∈ val_list row)
    (hfail : hapLookup df_h1 df_h2 p.1 p.2 col = none) :
    val_per_hap df df_h1 df_h2 col delim = none := by
  induction df with
  | nil => cases hrow
  | cons r rest ih =>
    unfold val_per_hap
    rcases List.mem_cons.mp hrow with hr | hr
    · subst hr
      have : val_per_hap_row df_h1 df_h2 col delim row = none := by
        unfold val_per_hap_row
        rw [gatherVals_of_mem_fail df_h1 df_h2 col hp hfail]
        rfl
      rw [this]
    · rw [ih hr]
      rcases val_per_hap_row df_h1 df_h2 col delim r with _ | v <;> rfl

/-- Witness for `val_per_hap_dangling`: `HAP_VARIANTS` references `vX`,
absent from h1's (empty) source table, so the whole Series fails. -/
theorem val_per_hap_dangling_witness :
    val_per_hap [⟨"h1", "vX"⟩] [] [⟨"v9", [("CI", "0,3")]⟩] "CI" ";" = none :=
  val_per_hap_dangling [] [⟨"v9", [("CI", "0,3")]⟩] "CI" ";"
    [⟨"h1", "vX"⟩] ⟨"h1", "vX"⟩ ("h1", "vX")
    (by decide) (by decide) (by decide)

/-- A record of the callset DataFrame passed to `filter_by_tig_tree`: its
pandas index label, its `TIG_REGION` string, and its remaining column
values. -/
structure TigRow where
  index : String
  tig_region : String
  rest : List String
deriving Repr, DecidableEq

/-- Decimal value of a digit run, as Python's `int()` reads a `\d+` group. -/
def decValue (l : List Char) : Nat :=
  l.foldl (fun n c => 10 * n + (c.toNat - 48)) 0

/-- `re.match('^([^:]+):(\d+)-(\d+)$', s)`: one nonempty colon-free contig
token, `:`, a digit run, `-`, a digit run, then the end of the string (the
`$` anchor also matches just before one final newline).  `none` embeds a
failed match. -/
def parseTigRegion (s : String) : Option (String × Nat × Nat) :=
  let l := s.toList
  let core := if l.getLast? = some '\n' then l.dropLast else l
  match pySplit ':' (List.asString core) with
  | [contig, rng] =>
    if contig.isEmpty then none
    else
      match pySplit '-' rng with
      | [a, b] =>
        if a.isEmpty || b.isEmpty
            || !(a.toList.all Char.isDigit) || !(b.toList.all Char.isDigit)
        then none
        else some (contig, decValue a.toList, decValue b.toList)
      | _ => none
  | _ => none

/-- The `RuntimeError` message of `filter_by_tig_tree` for a `TIG_REGION`
that fails the pattern match, naming the record's index and the raw value. -/
def tigErrMsg (index tig : String) : String :=
  "Unrecognized TIG_REGION format for record " ++ index ++ ": " ++ tig

/-- The loop of `filter_by_tig_tree` accumulating `rm_index_set`: parse each
row's `TIG_REGION` (raising on the first mismatch) and record the row's index
label whenever `tig_filter_tree[contig][start-1:end]` is non-empty. -/
def buildRmSet (rows : List TigRow) (tree : String → List Interval) :
    Except String (List String) :=
  match rows with
  | [] => Except.ok []
  | r :: rest =>
    match parseTigRegion r.tig_region with
    | none => Except.error (tigErrMsg r.index r.tig_region)
    | some (contig, s, e) =>
      match buildRmSet rest tree with
      | Except.error msg => Except.error msg
      | Except.ok rm =>
        if (treeOverlap (tree contig) ((s : Int) - 1) (e : Int)).isEmpty
        then Except.ok rm
        else Except.ok (r.index :: rm)

/-- Embedding of `filter_by_tig_tree(df, tig_filter_tree)`: pass through when
the tree is `None`; otherwise build `rm_index_set`, return `df` itself when
it is empty, and otherwise keep the rows whose index label is not in the
set. -/
def filter_by_tig_tree (df : List TigRow)
    (tig_filter_tree : Option (String → List Interval)) :
    Except String (List TigRow) :=
  match tig_filter_tree with
  | none => Except.ok df
  | some tree =>
    match buildRmSet df tree with
    | Except.error msg => Except.error msg
    | Except.ok rm =>
      if rm.isEmpty then Except.ok df
      else Except.ok (df.filter (fun r => !(rm.contains r.index)))

/-- Whether a row's parsed `TIG_REGION` interval `[start-1, end)` has a
non-empty overlap with the exclusion tree (false when the row is
unparseable). -/
def tigRowOverlaps (tree : String → List Interval) (r : TigRow) : Bool :=
  match parseTigRegion r.tig_region with
  | none => false
  | some (contig, s, e) =>
    !(treeOverlap (tree contig) ((s : Int) - 1) (e : Int)).isEmpty

lemma buildRmSet_ok (tree : String → List Interval) (rows : List TigRow)
    (hp : ∀ r ∈ rows, (parseTigRegion r.tig_region).isSome) :
    buildRmSet rows tree
      = Except.ok ((rows.filter (tigRowOverlaps tree)).map TigRow.index) := by
  induction rows with
  | nil => rfl
  | cons r rest ih =>
    have hr := hp r (List.mem_cons_self r rest)
    obtain ⟨⟨contig, s, e⟩, hpr⟩ := Option.isSome_iff_exists.mp hr
    unfold buildRmSet
    rw [hpr, ih (fun x hx => hp x (List.mem_cons_of_mem _ hx))]
    dsimp only
    by_cases hov : (treeOverlap (tree contig) ((s : Int) - 1) (e : Int)).isEmpty
    · rw [if_pos hov]
      have : tigRowOverlaps tree r = false := by
        unfold tigRowOverlaps
        rw [hpr]
        dsimp only
        rw [hov]
        rfl
      rw [List.filter_cons_of_neg (by rw [this]; exact Bool.false_ne_true)]
    · rw [if_neg hov]
      have : tigRowOverlaps tree r = true := by
        unfold tigRowOverlaps
        rw [hpr]
        dsimp only
        simpa using hov
      rw [List.filter_cons_of_pos this, List.map_cons]

/-- C7: with no exclusion tree, `filter_by_tig_tree` is an identity
pass-through: the input call set is returned unchanged, with no filtering and
no mutation. -/
theorem filter_by_tig_tree_none (df : List TigRow) :
    filter_by_tig_tree df none = Except.ok df := rfl

/-- C6 (amended): when every record's `TIG_REGION` parses and the call set's
index labels are pairwise distinct, `filter_by_tig_tree` with a non-`None`
exclusion tree removes a record iff its parsed interval `[start-1, end)` has
a non-empty overlap with the tree; the zero-overlap records are returned with
their values, relative order and index labels unchanged. -/
theorem filter_by_tig_tree_exclusivity (df : List TigRow)
    (tree : String → List Interval)
    (hp : ∀ r ∈ df, (parseTigRegion r.tig_region).isSome)
    (hnd : (df.map TigRow.index).Nodup) :
    filter_by_tig_tree df (some tree)
      = Except.ok (df.filter (fun r => !(tigRowOverlaps tree r))) := by
  unfold filter_by_tig_tree
  dsimp only
  rw [buildRmSet_ok tree df hp]
  dsimp only
  by_cases hempty : ((df.filter (tigRowOverlaps tree)).map TigRow.index).isEmpty
  · rw [if_pos hempty]
    have hnil : df.filter (tigRowOverlaps tree) = [] :=
      List.map_eq_nil_iff.mp (List.isEmpty_iff.mp hempty)
    have h0 := List.filter_eq_nil_iff.mp hnil
    have : df.filter (fun r => !(tigRowOverlaps tree r)) = df :=
      List.filter_eq_self.mpr (fun r hr => by simp [h0 r hr])
    rw [this]
  · rw [if_neg hempty]
    congr 1
    apply List.filter_congr
    intro r hr
    congr 1
    rw [Bool.eq_iff_iff]
    simp only [List.contains, List.elem_iff, List.mem_map, List.mem_filter]
    constructor
    · rintro ⟨r', ⟨hr'mem, hr'ov⟩, hri⟩
      have : r' = r := List.inj_on_of_nodup_map hnd hr'mem hr hri
      rwa [this] at hr'ov
    · intro hov
      exact ⟨r, ⟨hr, hov⟩, rfl⟩

/-- Witness for `filter_by_tig_tree_exclusivity`: two records with distinct
labels, one overlapping the exclusion tree and one not; exactly the
overlapping record is removed. -/
theorem filter_by_tig_tree_exclusivity_witness :
    filter_by_tig_tree
        [⟨"A", "c:10-20", ["x"]⟩, ⟨"B", "c:100-110", ["y"]⟩]
        (some (fun c => if c = "c" then [⟨5, 30⟩] else []))
      = Except.ok ([⟨"A", "c:10-20", ["x"]⟩, ⟨"B", "c:100-110", ["y"]⟩].filter
          (fun r => !(tigRowOverlaps (fun c => if c = "c" then [⟨5, 30⟩] else []) r))) :=
  filter_by_tig_tree_exclusivity
    [⟨"A", "c:10-20", ["x"]⟩, ⟨"B", "c:100-110", ["y"]⟩]
    (fun c => if c = "c" then [⟨5, 30⟩] else [])
    (by decide) (by decide)

/-- C6 counterexample: two records share the index label `"A"`; the first
overlaps the exclusion tree, the second has zero overlap, yet both are
removed, because `rm_index_set` marks index labels rather than records.  The
zero-overlap record is not retained, refuting the claim as stated. -/
theorem filter_by_tig_tree_exclusivity_counterexample :
    tigRowOverlaps (fun c => if c = "c" then [⟨5, 30⟩] else [])
        ⟨"A", "c:100-110", ["y"]⟩ = false ∧
      filter_by_tig_tree
          [⟨"A", "c:10-20", ["x"]⟩, ⟨"A", "c:100-110", ["y"]⟩]
          (some (fun c => if c = "c" then [⟨5, 30⟩] else []))
        = Except.ok [] := by
  exact ⟨by decide, by rfl⟩

lemma buildRmSet_error (tree : String → List Interval) (df : List TigRow)
    (r : TigRow) (hr : r ∈ df) (hbad : parseTigRegion r.tig_region = none) :
    ∃ b ∈ df, parseTigRegion b.tig_region = none ∧
      buildRmSet df tree = Except.error (tigErrMsg b.index b.tig_region) := by
  induction df with
  | nil => cases hr
  | cons q rest ih =>
    by_cases hq : parseTigRegion q.tig_region = none
    · refine ⟨q, List.mem_cons_self q rest, hq, ?_⟩
      unfold buildRmSet
      rw [hq]
    · have hrr : r ∈ rest := by
        rcases List.mem_cons.mp hr with h | h
        · exact absurd (h ▸ hbad) hq
        · exact h
      obtain ⟨b, hb, hbbad, hres⟩ := ih hrr
      refine ⟨b, List.mem_cons_of_mem _ hb, hbbad, ?_⟩
      obtain ⟨⟨contig, s, e⟩, hq'⟩ :=
        Option.isSome_iff_exists.mp (Option.ne_none_iff_isSome.mp hq)
      unfold buildRmSet
      rw [hq', hres]

/-- C8: a record whose `TIG_REGION` fails the `"contig:start-end"` pattern
makes `filter_by_tig_tree` with a non-`None` exclusion tree abort with a
`RuntimeError` naming an offending record's index label and its raw
`TIG_REGION` value; the record is neither skipped nor kept. -/
theorem filter_by_tig_tree_malformed (df : List TigRow)
    (tree : String → List Interval) (r : TigRow)
    (hr : r ∈ df) (hbad : parseTigRegion r.tig_region = none) :
    ∃ b ∈ df, parseTigRegion b.tig_region = none ∧
      filter_by_tig_tree df (some tree)
        = Except.error (tigErrMsg b.index b.tig_region) := by
  obtain ⟨b, hb, hbbad, hres⟩ := buildRmSet_error tree df r hr hbad
  refine ⟨b, hb, hbbad, ?_⟩
  unfold filter_by_tig_tree
  dsimp only
  rw [hres]

/-- Witness for `filter_by_tig_tree_malformed`: the second record's
`TIG_REGION` `"garbage"` fails the pattern, and the call aborts reporting
record `"B"` with value `"garbage"`. -/
theorem filter_by_tig_tree_malformed_witness :
    ∃ b ∈ [TigRow.mk "good" "c:1-2" [], TigRow.mk "B" "garbage" []],
      parseTigRegion b.tig_region = none ∧
        filter_by_tig_tree [TigRow.mk "good" "c:1-2" [], TigRow.mk "B" "garbage" []]
            (some (fun _ => []))
          = Except.error (tigErrMsg b.index b.tig_region) :=
  filter_by_tig_tree_malformed
    [TigRow.mk "good" "c:1-2" [], TigRow.mk "B" "garbage" []]
    (fun _ => []) (TigRow.mk "B" "garbage" []) (by decide) (by decide)

/-- C10: with a non-`None` exclusion tree, when every record parses and no
record overlaps the tree, the removal set is empty and `filter_by_tig_tree`
returns the input call set itself, with index and every column unchanged. -/
theorem filter_by_tig_tree_no_removal (df : List TigRow)
    (tree : String → List Interval)
    (hp : ∀ r ∈ df, (parseTigRegion r.tig_region).isSome)
    (hov : ∀ r ∈ df, tigRowOverlaps tree r = false) :
    filter_by_tig_tree df (some tree) = Except.ok df := by
  unfold filter_by_tig_tree
  dsimp only
  rw [buildRmSet_ok tree df hp]
  have : df.filter (tigRowOverlaps tree) = [] :=
    List.filter_eq_nil_iff.mpr (fun r hr => by simp [hov r hr])
  rw [this]
  rfl

/-- Witness for `filter_by_tig_tree_no_removal`: one record whose contig
interval misses the exclusion tree entirely; the input is returned as is. -/
theorem filter_by_tig_tree_no_removal_witness :
    filter_by_tig_tree [⟨"A", "c:100-110", ["x"]⟩]
        (some (fun c => if c = "c" then [⟨5, 30⟩] else []))
      = Except.ok [⟨"A", "c:100-110", ["x"]⟩] :=
  filter_by_tig_tree_no_removal [⟨"A", "c:100-110", ["x"]⟩]
    (fun c => if c = "c" then [⟨5, 30⟩] else [])
    (by decide) (by decide)

/-- The "program bug" message `merge_haplotypes` raises on a `0|0`
genotype. -/
def progBugMsg : String := "Program bug: Found 0|0 genotypes after merging haplotypes"

/-- The assembled `GT` column of `merge_haplotypes` for a non-empty merged
call set: per record, `'{}|{}'.format(GT_H1, GT_H2)` with
`GT_H1 = get_gt(row, 'h1', map_tree_h1)` and
`GT_H2 = get_gt(row, 'h2', map_tree_h2)`. -/
def merge_gt_col (rows : List VarRow)
    (map_tree_h1 map_tree_h2 : String → List Interval) : List String :=
  rows.map (fun r => get_gt r "h1" map_tree_h1 ++ "|" ++ get_gt r "h2" map_tree_h2)

/-- The genotype stage of `merge_haplotypes`: build the `GT` column, raise
the "program bug" `RuntimeError` if any entry equals `"0|0"`, and otherwise
return the column. -/
def merge_gt_stage (rows : List VarRow)
    (map_tree_h1 map_tree_h2 : String → List Interval) : Except String (List String) :=
  if (merge_gt_col rows map_tree_h1 map_tree_h2).any (fun v => v == "0|0")
  then Except.error progBugMsg
  else Except.ok (merge_gt_col rows map_tree_h1 map_tree_h2)

/-- C2: the genotype stage of `merge_haplotypes` never returns a call set
with a `"0|0"` genotype: if any assembled per-record genotype equals `"0|0"`
it raises the "program bug" `RuntimeError` instead of returning, and any
returned `GT` column has no `"0|0"` entry. -/
theorem merge_gt_no_double_absence (rows : List VarRow)
    (t1 t2 : String → List Interval) :
    ((∃ r ∈ rows, get_gt r "h1" t1 ++ "|" ++ get_gt r "h2" t2 = "0|0") →
        merge_gt_stage rows t1 t2 = Except.error progBugMsg) ∧
      (∀ gts, merge_gt_stage rows t1 t2 = Except.ok gts → "0|0" ∉ gts) := by
  constructor
  · rintro ⟨r, hr, hgt⟩
    have hany : (merge_gt_col rows t1 t2).any (fun v => v == "0|0") = true := by
      refine List.any_eq_true.mpr ⟨_, List.mem_map_of_mem _ hr, ?_⟩
      exact beq_iff_eq.mpr hgt
    unfold merge_gt_stage
    rw [if_pos hany]
  · intro gts hok hmem
    unfold merge_gt_stage at hok
    by_cases hany : (merge_gt_col rows t1 t2).any (fun v => v == "0|0") = true
    · rw [if_pos hany] at hok
      cases hok
    · rw [if_neg hany] at hok
      have hcol : gts = merge_gt_col rows t1 t2 := by
        cases hok
        rfl
      rw [hcol] at hmem
      exact hany (List.any_eq_true.mpr ⟨"0|0", hmem, beq_iff_eq.mpr rfl⟩)

/-- Witness for `merge_gt_no_double_absence`: a record called in neither
haplotype but mappable in both assembles `"0|0"` and trips the "program bug"
error; a record called only in h1 assembles `"1|0"` and is returned. -/
theorem merge_gt_no_double_absence_witness :
    merge_gt_stage [⟨"chr1", 100, 200, ""⟩] (fun _ => [⟨50, 300⟩]) (fun _ => [⟨50, 300⟩])
        = Except.error progBugMsg ∧
      (∀ gts, merge_gt_stage [⟨"chr1", 100, 200, "h1"⟩]
          (fun _ => [⟨50, 300⟩]) (fun _ => [⟨50, 300⟩]) = Except.ok gts → "0|0" ∉ gts) :=
  ⟨(merge_gt_no_double_absence [⟨"chr1", 100, 200, ""⟩]
        (fun _ => [⟨50, 300⟩]) (fun _ => [⟨50, 300⟩])).1
      ⟨⟨"chr1", 100, 200, ""⟩, by decide, by decide⟩,
    (merge_gt_no_double_absence [⟨"chr1", 100, 200, "h1"⟩]
        (fun _ => [⟨50, 300⟩]) (fun _ => [⟨50, 300⟩])).2⟩

/-- Embedding of the `is_inv` resolution at the top of `merge_haplotypes`:
`if is_inv is None: is_inv = np.any(df['SVTYPE'] == 'INV')`.  The second
argument is the state of the local name `df` at that point (`none` while it
is unassigned; the `SVTYPE` column once assigned); in the source, `df` is
bound only by the later `analib.svmerge.merge_variants` call, and reading an
unassigned local raises `UnboundLocalError`. -/
def resolve_is_inv (is_inv : Option Bool) (df_svtype : Option (List String)) :
    Except String Bool :=
  match is_inv with
  | some b => Except.ok b
  | none =>
    match df_svtype with
    | some svtypes => Except.ok (svtypes.any (fun v => v == "INV"))
    | none =>
      Except.error "UnboundLocalError: local variable referenced before assignment"

/-- C3 (code bug): a call of `merge_haplotypes` with `is_inv = None` reaches
the auto-detection with the local `df` still unassigned, so it raises
`UnboundLocalError` instead of detecting inversion mode and completing the
merge. -/
theorem merge_haplotypes_is_inv_unbound :
    resolve_is_inv none none
      = Except.error "UnboundLocalError: local variable referenced before assignment" :=
  rfl

end PavCall
